import Mathlib

/-!
Verification development for the fees-api billing ledger.

The Go sources are shallowly embedded:
  * `internal/model` (Currency, BillStatus, Bill, LineItem) become Lean
    structures; money amounts (`float64` in Go) are modelled as exact
    rationals `ℚ`, timestamps (`time.Time`) as `Nat` nanosecond clock values
    supplied explicitly to each operation (the Go code calls
    `time.Now().UTC()` / `UnixNano()`).
  * `internal/repository.InMemoryBillRepository` (a Go map from id to Bill)
    becomes an association list `Store` with `Store.get`, `storeCreate`,
    `storeUpdate`, `storeList` mirroring `Get`, `Create`, `Update`, `List`.
  * `internal/service.BillingService` operations become functions returning
    `Except BillingError (Bill × Store)`; the Go methods mutate the
    repository, here the updated store is returned.
-/

/-- `model.Currency` restricted to the two declared constants
`CurrencyGEL` and `CurrencyUSD`; every other currency string is rejected by
validation before a `Currency` value is stored, which `parseCurrency`
captures. -/
inductive Currency where
  | GEL
  | USD
deriving DecidableEq, Repr

/-- The string carried by a `model.Currency` constant (Go's `Currency` is a
string type). -/
def currencyString : Currency → String
  | .GEL => "GEL"
  | .USD => "USD"

/-- Validation of a raw currency string, embedding the Go check
`c != CurrencyGEL && c != CurrencyUSD`: the result is `some` exactly for the
two supported constants. -/
def parseCurrency : String → Option Currency
  | "GEL" => some Currency.GEL
  | "USD" => some Currency.USD
  | _ => none

/-- `model.BillStatus`, with constants `BillStatusOpen` and
`BillStatusClosed`. -/
inductive BillStatus where
  | Open
  | Closed
deriving DecidableEq, Repr

/-- The string carried by a `model.BillStatus` constant. -/
def statusString : BillStatus → String
  | .Open => "open"
  | .Closed => "closed"

/-- `model.LineItem`. -/
structure LineItem where
  id : String
  description : String
  amount : ℚ
  currency : Currency
  createdAt : Nat
deriving DecidableEq, Repr

/-- `model.Bill`.  `closedAt` is Go's `*time.Time`, `none` while the pointer
is nil. -/
structure Bill where
  id : String
  status : BillStatus
  currency : Currency
  totalAmount : ℚ
  lineItems : List LineItem
  createdAt : Nat
  closedAt : Option Nat
deriving DecidableEq, Repr

/-- The repository's backing map `bills map[string]model.Bill`, as an
association list of key/bill pairs. -/
abbrev Store : Type := List (String × Bill)

/-- Membership test for a key, `_, ok := r.bills[id]`. -/
def storeHasKey (s : Store) (id : String) : Bool :=
  s.any (fun p => p.1 = id)

/-- `InMemoryBillRepository.Get`: looks up the bill stored under `id`,
`none` when absent (the Go method returns `nil, nil`). -/
def Store.get (s : Store) (id : String) : Option Bill :=
  (List.find? (fun p => p.1 = id) s).map (fun p => p.2)

/-- `InMemoryBillRepository.Create`: `r.bills[bill.ID] = *bill` — inserts
under the bill's id, silently overwriting an existing entry. -/
def storeCreate (s : Store) (b : Bill) : Store :=
  if storeHasKey s b.id then
    s.map (fun p => if p.1 = b.id then (b.id, b) else p)
  else
    s ++ [(b.id, b)]

/-- `InMemoryBillRepository.Update`: writes `r.bills[bill.ID] = *bill` only
when the key is already present, otherwise returns with no change (the Go
method returns nil in both cases — it never fails). -/
def storeUpdate (s : Store) (b : Bill) : Store :=
  if storeHasKey s b.id then
    s.map (fun p => if p.1 = b.id then (b.id, b) else p)
  else
    s

/-- `InMemoryBillRepository.List`: all stored bills, skipping those whose
status string differs from a non-empty filter.  Never fails. -/
def storeList (s : Store) (status : String) : List Bill :=
  s.filterMap (fun p =>
    if status ≠ "" ∧ statusString p.2.status ≠ status then none else some p.2)

/-- The service's error values from `pkg/errors`: `BillNotFound(billID)`,
`BillClosed(billID)`, `UnsupportedCurrency(currency)` each carrying the
string interpolated into the message. -/
inductive BillingError where
  | BillNotFound (billID : String)
  | BillClosed (billID : String)
  | UnsupportedCurrency (currency : String)
deriving DecidableEq, Repr

/-- `generateID`: `fmt.Sprintf("bill_%d", time.Now().UnixNano())`, applied
to the explicit nanosecond clock value. -/
def generateID (now : Nat) : String :=
  "bill_" ++ Nat.repr now

/-- The exchange-rate table entry `exchangeRates[CurrencyGEL] = 0.37`
(1 GEL = 0.37 USD); the USD entry is 1.0. -/
def exchangeRateGEL : ℚ := 37 / 100

/-- `BillingService.ConvertToUSD`: USD passes through unchanged, anything
else (i.e. GEL) is multiplied by the GEL rate. -/
def ConvertToUSD (amount : ℚ) (currency : Currency) : ℚ :=
  if currency = Currency.USD then amount else amount * exchangeRateGEL

/-- `BillingService.convertAndAdd`: add the raw amount when the currencies
match, otherwise add the amount converted to USD (the Go comment says
"Assume 1:1 for USD to bill currency (simplified)" — no conversion toward
the bill's currency happens). -/
def convertAndAdd (total : ℚ) (billCurrency : Currency) (amount : ℚ)
    (amountCurrency : Currency) : ℚ :=
  if billCurrency = amountCurrency then total + amount
  else total + ConvertToUSD amount amountCurrency

/-- The bill literal constructed by `BillingService.CreateBill`: status
open, empty line items, zero-valued `TotalAmount` (the Go struct literal
omits the field), fresh id from the clock. -/
def mkBill (cur : Currency) (now : Nat) : Bill :=
  { id := generateID now
    status := BillStatus.Open
    currency := cur
    totalAmount := 0
    lineItems := []
    createdAt := now
    closedAt := none }

/-- `BillingService.CreateBill`: default empty currency to USD, reject a
resolved currency outside GEL/USD, otherwise build the bill, persist it via
`Create` and return it. -/
def CreateBill (s : Store) (reqCurrency : String) (now : Nat) :
    Except BillingError (Bill × Store) :=
  let resolved := if reqCurrency = "" then "USD" else reqCurrency
  match parseCurrency resolved with
  | none => Except.error (BillingError.UnsupportedCurrency resolved)
  | some cur =>
      let bill := mkBill cur now
      Except.ok (bill, storeCreate s bill)

/-- The line item literal constructed by `BillingService.AddLineItem`. -/
def mkLineItem (description : String) (amount : ℚ) (cur : Currency)
    (now : Nat) : LineItem :=
  { id := generateID now
    description := description
    amount := amount
    currency := cur
    createdAt := now }

/-- `BillingService.AddLineItem`: in source order — not-found check, closed
check, currency validation, then append the fresh line item, update the
running total through `convertAndAdd`, persist via `Update` and return the
updated bill. -/
def AddLineItem (s : Store) (billID : String) (description : String)
    (amount : ℚ) (reqCurrency : String) (now : Nat) :
    Except BillingError (Bill × Store) :=
  match Store.get s billID with
  | none => Except.error (BillingError.BillNotFound billID)
  | some bill =>
      if bill.status = BillStatus.Closed then
        Except.error (BillingError.BillClosed billID)
      else
        match parseCurrency reqCurrency with
        | none => Except.error (BillingError.UnsupportedCurrency reqCurrency)
        | some cur =>
            let bill' :=
              { bill with
                  lineItems := bill.lineItems ++ [mkLineItem description amount cur now]
                  totalAmount := convertAndAdd bill.totalAmount bill.currency amount cur }
            Except.ok (bill', storeUpdate s bill')

/-- `BillingService.CloseBill`: not-found check, already-closed check, then
set status closed and the closing timestamp, persist via `Update`. -/
def CloseBill (s : Store) (billID : String) (now : Nat) :
    Except BillingError (Bill × Store) :=
  match Store.get s billID with
  | none => Except.error (BillingError.BillNotFound billID)
  | some bill =>
      if bill.status = BillStatus.Closed then
        Except.error (BillingError.BillClosed billID)
      else
        let bill' := { bill with status := BillStatus.Closed, closedAt := some now }
        Except.ok (bill', storeUpdate s bill')

/-- `BillingService.GetBill`: not-found check, otherwise the snapshot. -/
def GetBill (s : Store) (billID : String) : Except BillingError Bill :=
  match Store.get s billID with
  | none => Except.error (BillingError.BillNotFound billID)
  | some bill => Except.ok bill

/-- `BillingService.ListBills`: delegates to the repository's `List`. -/
def ListBills (s : Store) (status : String) : List Bill :=
  storeList s status

deriving instance DecidableEq for Except

/-- One external operation of the service, carrying the clock value the Go
code would read from `time.Now()`. -/
inductive Op where
  | create (reqCurrency : String) (now : Nat)
  | add (billID description : String) (amount : ℚ) (reqCurrency : String) (now : Nat)
  | close (billID : String) (now : Nat)
  | getOp (billID : String)
  | listOp (status : String)
deriving DecidableEq, Repr

/-- The store after one operation; a failed operation leaves the store as
it was (the service returns the error before calling `Update`/`Create`),
and `GetBill`/`ListBills` are read-only. -/
def applyOp (s : Store) : Op → Store
  | Op.create rc now =>
      match CreateBill s rc now with
      | Except.ok (_, s') => s'
      | Except.error _ => s
  | Op.add id d a rc now =>
      match AddLineItem s id d a rc now with
      | Except.ok (_, s') => s'
      | Except.error _ => s
  | Op.close id now =>
      match CloseBill s id now with
      | Except.ok (_, s') => s'
      | Except.error _ => s
  | Op.getOp _ => s
  | Op.listOp _ => s

/-- The store reached from `s` by a sequence of operations. -/
def runOps (s : Store) (ops : List Op) : Store :=
  ops.foldl applyOp s

/-- Full recomputation of a bill's total: fold the stored line items in
insertion order through the same `convertAndAdd` step the service applied
when each was added (the conversion table is static, so the rule "at the
time each was added" is this rule). -/
def recomputedTotal (b : Bill) : ℚ :=
  b.lineItems.foldl (fun acc li => convertAndAdd acc b.currency li.amount li.currency) 0

/-- The ledger invariant: every stored bill's running `totalAmount` agrees
with the full recomputation from its line items. -/
def TotalInv (s : Store) : Prop :=
  ∀ p ∈ s, (p.2).totalAmount = recomputedTotal p.2

/-- Well-formedness of the backing map: every entry is keyed by its bill's
id, as `Create`/`Update` guarantee (`r.bills[bill.ID] = *bill`). -/
def WFStore (s : Store) : Prop :=
  ∀ p ∈ s, p.1 = (p.2).id

/-!
JSON serialization of a `Bill` (`billing.Bill.MarshalJSON`): the emitted
object carries every field of the bill (status and currency as their
strings) plus the derived `totalAmountDisplay` string built by
`fmt.Sprintf("%.2f %s", b.TotalAmount, b.Currency)`.  Deserialization is
Go's default `encoding/json` unmarshalling of the `Bill` struct: it reads
the tagged fields and ignores the unknown `totalAmountDisplay` key.
-/

/-- `%.2f` rounding: the integer nearest `q` (here applied to `100·q`),
ties to even — the rounding `strconv` applies when formatting a value with
two fractional digits. -/
def roundTiesEven (q : ℚ) : ℤ :=
  if q - ⌊q⌋ < 1 / 2 then ⌊q⌋
  else if 1 / 2 < q - ⌊q⌋ then ⌊q⌋ + 1
  else if ⌊q⌋ % 2 = 0 then ⌊q⌋ else ⌊q⌋ + 1

/-- Two-digit zero-padded rendering of `n < 100`. -/
def pad2 (n : Nat) : String :=
  List.asString [Nat.digitChar (n / 10), Nat.digitChar (n % 10)]

/-- `fmt.Sprintf("%.2f", q)`: sign, integer part, and exactly two
fractional digits of the rounded magnitude. -/
def fmtF2 (q : ℚ) : String :=
  let m : Nat := (roundTiesEven (100 * |q|)).toNat
  (if q < 0 then "-" else "") ++ Nat.repr (m / 100) ++ "." ++ pad2 (m % 100)

/-- The numeric value the display string denotes: the total rounded to two
decimal places. -/
def displayValue (b : Bill) : ℚ :=
  (roundTiesEven (100 * b.totalAmount) : ℚ) / 100

/-- The `totalAmountDisplay` field: `"<amount to 2 decimal places> <currency code>"`. -/
def totalAmountDisplay (b : Bill) : String :=
  fmtF2 b.totalAmount ++ " " ++ currencyString b.currency

/-- The JSON object emitted for a `LineItem` (default marshalling of the
tagged struct; currency appears as its string). -/
structure LineItemJSON where
  id : String
  description : String
  amount : ℚ
  currency : String
  createdAt : Nat
deriving DecidableEq, Repr

/-- The JSON object emitted by `Bill.MarshalJSON`: the aliased bill fields
plus `totalAmountDisplay`. -/
structure BillJSON where
  id : String
  status : String
  currency : String
  totalAmount : ℚ
  lineItems : List LineItemJSON
  createdAt : Nat
  closedAt : Option Nat
  totalAmountDisplay : String
deriving DecidableEq, Repr

/-- Marshalling of one line item. -/
def LineItem.marshal (li : LineItem) : LineItemJSON :=
  { id := li.id
    description := li.description
    amount := li.amount
    currency := currencyString li.currency
    createdAt := li.createdAt }

/-- `Bill.MarshalJSON`: all bill fields together with the display string. -/
def Bill.marshalJSON (b : Bill) : BillJSON :=
  { id := b.id
    status := statusString b.status
    currency := currencyString b.currency
    totalAmount := b.totalAmount
    lineItems := b.lineItems.map LineItem.marshal
    createdAt := b.createdAt
    closedAt := b.closedAt
    totalAmountDisplay := totalAmountDisplay b }

/-- Reading a status string back (the two values the system ever stores). -/
def parseStatus : String → Option BillStatus
  | "open" => some BillStatus.Open
  | "closed" => some BillStatus.Closed
  | _ => none

/-- Default unmarshalling of a line item object. -/
def unmarshalLineItem (j : LineItemJSON) : Option LineItem :=
  (parseCurrency j.currency).map fun cur =>
    { id := j.id
      description := j.description
      amount := j.amount
      currency := cur
      createdAt := j.createdAt }

/-- Default `encoding/json` unmarshalling of a `Bill`: reads the tagged
fields, ignores the unknown `totalAmountDisplay` key. -/
def unmarshalBill (j : BillJSON) : Option Bill := do
  let st ← parseStatus j.status
  let cur ← parseCurrency j.currency
  let items ← j.lineItems.mapM unmarshalLineItem
  pure { id := j.id
         status := st
         currency := cur
         totalAmount := j.totalAmount
         lineItems := items
         createdAt := j.createdAt
         closedAt := j.closedAt }

/-- The total-update branches of the duplicated `billing` package's
`AddLineItem` (the three ifs at billing.go:169-175); falls through with the
total unchanged when no branch matches (unreachable for validated
currencies). -/
def billingAddLineItemTotal (billCur reqCur : Currency) (total amount : ℚ) : ℚ :=
  if billCur = reqCur then total + amount
  else if reqCur = Currency.GEL ∧ billCur = Currency.USD then
    total + ConvertToUSD amount Currency.GEL
  else if reqCur = Currency.USD ∧ billCur = Currency.GEL then
    total + ConvertToUSD amount Currency.USD
  else total

/-- Value of a decimal digit character. -/
def digitVal (c : Char) : Nat := c.toNat - 48

/-- Value denoted by a list of decimal digit characters (most significant
first), used to invert `Nat.repr`. -/
def decodeDigits (l : List Char) : Nat :=
  l.foldl (fun acc c => acc * 10 + digitVal c) 0

/-! ### Store lemmas -/

theorem storeHasKey_false_iff {s : Store} {id : String} :
    storeHasKey s id = false ↔ ∀ p ∈ s, p.1 ≠ id := by
  simp [storeHasKey]

theorem get_eq_none_iff {s : Store} {id : String} :
    Store.get s id = none ↔ storeHasKey s id = false := by
  simp [Store.get, List.find?_eq_none, storeHasKey]

theorem get_mem {s : Store} {id : String} {b : Bill} (h : Store.get s id = some b) :
    (id, b) ∈ s := by
  simp only [Store.get, Option.map_eq_some'] at h
  obtain ⟨p, hfind, hpb⟩ := h
  have hmem := List.mem_of_find?_eq_some hfind
  have hkey := List.find?_some hfind
  simp only [decide_eq_true_eq] at hkey
  cases p
  simp_all

theorem get_isSome_hasKey {s : Store} {id : String} {b : Bill}
    (h : Store.get s id = some b) : storeHasKey s id = true := by
  have := get_mem h
  simp only [storeHasKey, List.any_eq_true]
  exact ⟨(id, b), this, by simp⟩

theorem find?_write_self {s : Store} {b : Bill} (h : storeHasKey s b.id = true) :
    List.find? (fun p => p.1 = b.id)
      (s.map (fun p => if p.1 = b.id then (b.id, b) else p)) = some (b.id, b) := by
  induction s with
  | nil => simp [storeHasKey] at h
  | cons q t ih =>
    simp only [List.map_cons]
    by_cases hq : q.1 = b.id
    · rw [if_pos hq, List.find?_cons_of_pos _ (by simp)]
    · have h' : storeHasKey t b.id = true := by
        unfold storeHasKey at h ⊢
        simp only [List.any_cons, Bool.or_eq_true, decide_eq_true_eq] at h
        rcases h with h | h
        · exact absurd h hq
        · exact h
      rw [if_neg hq, List.find?_cons_of_neg _ (by simpa using hq)]
      exact ih h'

theorem find?_write_ne {s : Store} {b : Bill} {id : String} (hne : id ≠ b.id) :
    List.find? (fun p => p.1 = id)
      (s.map (fun p => if p.1 = b.id then (b.id, b) else p)) =
    List.find? (fun p => p.1 = id) s := by
  induction s with
  | nil => simp
  | cons q t ih =>
    simp only [List.map_cons]
    by_cases hq : q.1 = b.id
    · rw [if_pos hq, List.find?_cons_of_neg _ (by simp [Ne.symm hne]),
          List.find?_cons_of_neg _ (by simp [hq, Ne.symm hne])]
      exact ih
    · by_cases hid : q.1 = id
      · rw [if_neg hq, List.find?_cons_of_pos _ (by simp [hid]),
            List.find?_cons_of_pos _ (by simp [hid])]
      · rw [if_neg hq, List.find?_cons_of_neg _ (by simpa using hid),
            List.find?_cons_of_neg _ (by simpa using hid)]
        exact ih

theorem get_storeCreate_self (s : Store) (b : Bill) :
    Store.get (storeCreate s b) b.id = some b := by
  unfold storeCreate
  by_cases h : storeHasKey s b.id
  · simp [h, Store.get, find?_write_self h]
  · have hnone : List.find? (fun p => decide (p.1 = b.id)) s = none := by
      rw [List.find?_eq_none]
      intro p hp
      simp only [Bool.not_eq_true, decide_eq_false_iff_not]
      exact storeHasKey_false_iff.mp (by simpa using h) p hp
    simp [h, Store.get, List.find?_append, hnone, List.find?_cons]

theorem get_storeCreate_ne (s : Store) (b : Bill) (id : String) (h : id ≠ b.id) :
    Store.get (storeCreate s b) id = Store.get s id := by
  unfold storeCreate
  by_cases hk : storeHasKey s b.id
  · simp [hk, Store.get, find?_write_ne h]
  · simp [hk, Store.get, List.find?_append, List.find?_cons, Ne.symm h]

theorem get_storeUpdate_self (s : Store) (b : Bill) (h : storeHasKey s b.id = true) :
    Store.get (storeUpdate s b) b.id = some b := by
  unfold storeUpdate
  simp [h, Store.get, find?_write_self h]

theorem get_storeUpdate_ne (s : Store) (b : Bill) (id : String) (h : id ≠ b.id) :
    Store.get (storeUpdate s b) id = Store.get s id := by
  unfold storeUpdate
  by_cases hk : storeHasKey s b.id
  · simp [hk, Store.get, find?_write_ne h]
  · simp [hk]

theorem mem_storeUpdate {s : Store} {b : Bill} {p : String × Bill}
    (h : p ∈ storeUpdate s b) : p ∈ s ∨ p = (b.id, b) := by
  unfold storeUpdate at h
  by_cases hk : storeHasKey s b.id = true
  · rw [if_pos hk] at h
    rw [List.mem_map] at h
    obtain ⟨q, hq, hfq⟩ := h
    by_cases hqb : q.1 = b.id
    · right; rw [if_pos hqb] at hfq; exact hfq.symm
    · left; rw [if_neg hqb] at hfq; exact hfq ▸ hq
  · rw [if_neg hk] at h
    exact Or.inl h

theorem mem_storeCreate {s : Store} {b : Bill} {p : String × Bill}
    (h : p ∈ storeCreate s b) : p ∈ s ∨ p = (b.id, b) := by
  unfold storeCreate at h
  by_cases hk : storeHasKey s b.id = true
  · rw [if_pos hk] at h
    rw [List.mem_map] at h
    obtain ⟨q, hq, hfq⟩ := h
    by_cases hqb : q.1 = b.id
    · right; rw [if_pos hqb] at hfq; exact hfq.symm
    · left; rw [if_neg hqb] at hfq; exact hfq ▸ hq
  · rw [if_neg hk] at h
    rw [List.mem_append, List.mem_singleton] at h
    exact h

/-! ### Inversion lemmas for the service operations -/

theorem status_open_of_ne_closed {b : Bill} (h : ¬ b.status = BillStatus.Closed) :
    b.status = BillStatus.Open := by
  cases hb : b.status
  · rfl
  · exact absurd hb h

theorem CreateBill_ok_inv {s : Store} {rc : String} {now : Nat} {b' : Bill} {s' : Store}
    (h : CreateBill s rc now = Except.ok (b', s')) :
    ∃ cur, parseCurrency (if rc = "" then "USD" else rc) = some cur ∧
      b' = mkBill cur now ∧ s' = storeCreate s (mkBill cur now) := by
  unfold CreateBill at h
  cases hp : parseCurrency (if rc = "" then "USD" else rc) with
  | none => simp [hp] at h
  | some cur =>
    refine ⟨cur, rfl, ?_⟩
    simp only [hp] at h
    cases h
    exact ⟨rfl, rfl⟩

theorem AddLineItem_ok_inv {s : Store} {billID d : String} {a : ℚ} {rc : String}
    {now : Nat} {b' : Bill} {s' : Store}
    (h : AddLineItem s billID d a rc now = Except.ok (b', s')) :
    ∃ bill cur, Store.get s billID = some bill ∧ bill.status = BillStatus.Open ∧
      parseCurrency rc = some cur ∧
      b' = { bill with
               lineItems := bill.lineItems ++ [mkLineItem d a cur now]
               totalAmount := convertAndAdd bill.totalAmount bill.currency a cur } ∧
      s' = storeUpdate s b' := by
  unfold AddLineItem at h
  cases hg : Store.get s billID with
  | none => simp [hg] at h
  | some bill =>
    simp only [hg] at h
    by_cases hst : bill.status = BillStatus.Closed
    · simp [hst] at h
    · simp only [hst, if_false] at h
      cases hp : parseCurrency rc with
      | none => simp [hp] at h
      | some cur =>
        simp only [hp] at h
        cases h
        exact ⟨bill, cur, rfl, status_open_of_ne_closed hst, rfl, rfl, rfl⟩

theorem CloseBill_ok_inv {s : Store} {billID : String} {now : Nat} {b' : Bill} {s' : Store}
    (h : CloseBill s billID now = Except.ok (b', s')) :
    ∃ bill, Store.get s billID = some bill ∧ bill.status = BillStatus.Open ∧
      b' = { bill with status := BillStatus.Closed, closedAt := some now } ∧
      s' = storeUpdate s b' := by
  unfold CloseBill at h
  cases hg : Store.get s billID with
  | none => simp [hg] at h
  | some bill =>
    simp only [hg] at h
    by_cases hst : bill.status = BillStatus.Closed
    · simp [hst] at h
    · simp only [hst, if_false] at h
      cases h
      exact ⟨bill, rfl, status_open_of_ne_closed hst, rfl, rfl⟩

-- Concrete checks mirroring the repository's unit tests.
example : (CreateBill [] "" 1).map (fun p => p.1.currency) = Except.ok Currency.USD := by decide
example : (CreateBill [] "EUR" 1) = Except.error (BillingError.UnsupportedCurrency "EUR") := by decide
example :
    (AddLineItem (storeCreate [] (mkBill Currency.USD 1)) (generateID 1) "Service fee" 10 "USD" 2).map
      (fun p => p.1.totalAmount) = Except.ok 10 := by with_unfolding_all decide
example :
    (AddLineItem (storeCreate [] (mkBill Currency.USD 1)) (generateID 1) "Service fee" 100 "GEL" 2).map
      (fun p => p.1.totalAmount) = Except.ok 37 := by with_unfolding_all decide

/-! ### Claim theorems -/

theorem billingAddLineItemTotal_eq_convertAndAdd (bc rc : Currency) (total a : ℚ) :
    billingAddLineItemTotal bc rc total a = convertAndAdd total bc a rc := by
  cases bc <;> cases rc <;>
    simp [billingAddLineItemTotal, convertAndAdd, ConvertToUSD]

/-- C1: a successful AddLineItem on an open bill increases the total by the
raw amount when the item's currency equals the bill's currency, and
otherwise by the amount converted to USD via the fixed table (GEL multiplied
by 0.37, USD unchanged), with no conversion toward the bill's currency; the
updated bill is what gets persisted. -/
theorem addLineItem_conversion_rule
    (s : Store) (billID d : String) (a : ℚ) (rc : String) (now : Nat)
    (bill b' : Bill) (s' : Store)
    (hget : Store.get s billID = some bill)
    (hok : AddLineItem s billID d a rc now = Except.ok (b', s')) :
    ∃ cur, parseCurrency rc = some cur ∧
      bill.status = BillStatus.Open ∧
      b'.totalAmount = (if bill.currency = cur then bill.totalAmount + a
                        else bill.totalAmount + ConvertToUSD a cur) ∧
      ConvertToUSD a Currency.GEL = a * (37 / 100) ∧
      ConvertToUSD a Currency.USD = a ∧
      s' = storeUpdate s b' := by
  obtain ⟨bill0, cur, hget0, hopen, hp, hb', hs'⟩ := AddLineItem_ok_inv hok
  rw [hget] at hget0
  obtain rfl : bill = bill0 := Option.some.inj hget0
  refine ⟨cur, hp, hopen, ?_, ?_, ?_, hs'⟩
  · rw [hb']
    simp [convertAndAdd]
  · simp [ConvertToUSD, exchangeRateGEL]
  · simp [ConvertToUSD]

theorem addLineItem_conversion_rule_w :
    ∃ cur, parseCurrency "GEL" = some cur ∧
      (mkBill Currency.USD 1).status = BillStatus.Open ∧
      (Bill.mk "bill_1" BillStatus.Open Currency.USD 37
          [LineItem.mk "bill_2" "fee" 100 Currency.GEL 2] 1 none).totalAmount =
        (if (mkBill Currency.USD 1).currency = cur
         then (mkBill Currency.USD 1).totalAmount + 100
         else (mkBill Currency.USD 1).totalAmount + ConvertToUSD 100 cur) ∧
      ConvertToUSD 100 Currency.GEL = 100 * (37 / 100) ∧
      ConvertToUSD 100 Currency.USD = (100 : ℚ) ∧
      ([("bill_1", Bill.mk "bill_1" BillStatus.Open Currency.USD 37
          [LineItem.mk "bill_2" "fee" 100 Currency.GEL 2] 1 none)] : Store) =
        storeUpdate [("bill_1", mkBill Currency.USD 1)]
          (Bill.mk "bill_1" BillStatus.Open Currency.USD 37
            [LineItem.mk "bill_2" "fee" 100 Currency.GEL 2] 1 none) :=
  addLineItem_conversion_rule [("bill_1", mkBill Currency.USD 1)] "bill_1" "fee" 100 "GEL" 2
    (mkBill Currency.USD 1)
    (Bill.mk "bill_1" BillStatus.Open Currency.USD 37
      [LineItem.mk "bill_2" "fee" 100 Currency.GEL 2] 1 none)
    [("bill_1", Bill.mk "bill_1" BillStatus.Open Currency.USD 37
      [LineItem.mk "bill_2" "fee" 100 Currency.GEL 2] 1 none)]
    (by with_unfolding_all decide) (by with_unfolding_all decide)

/-- C4: AddLineItem on a Closed bill fails with the BillClosed error and
the store — in particular the stored bill, its line items and its total —
is exactly what it was before the call. -/
theorem addLineItem_closed_unchanged
    (s : Store) (billID d : String) (a : ℚ) (rc : String) (now : Nat) (bill : Bill)
    (hget : Store.get s billID = some bill)
    (hclosed : bill.status = BillStatus.Closed) :
    AddLineItem s billID d a rc now = Except.error (BillingError.BillClosed billID) ∧
    applyOp s (Op.add billID d a rc now) = s ∧
    Store.get (applyOp s (Op.add billID d a rc now)) billID = some bill := by
  have herr : AddLineItem s billID d a rc now = Except.error (BillingError.BillClosed billID) := by
    unfold AddLineItem
    rw [hget]
    simp [hclosed]
  refine ⟨herr, ?_, ?_⟩
  · simp [applyOp, herr]
  · simp [applyOp, herr, hget]

theorem addLineItem_closed_unchanged_w :
    AddLineItem [("bill_1", Bill.mk "bill_1" BillStatus.Closed Currency.USD 0 [] 1 (some 2))]
        "bill_1" "fee" 10 "EUR" 3 =
      Except.error (BillingError.BillClosed "bill_1") ∧
    applyOp [("bill_1", Bill.mk "bill_1" BillStatus.Closed Currency.USD 0 [] 1 (some 2))]
        (Op.add "bill_1" "fee" 10 "EUR" 3) =
      [("bill_1", Bill.mk "bill_1" BillStatus.Closed Currency.USD 0 [] 1 (some 2))] ∧
    Store.get (applyOp [("bill_1", Bill.mk "bill_1" BillStatus.Closed Currency.USD 0 [] 1 (some 2))]
        (Op.add "bill_1" "fee" 10 "EUR" 3)) "bill_1" =
      some (Bill.mk "bill_1" BillStatus.Closed Currency.USD 0 [] 1 (some 2)) :=
  addLineItem_closed_unchanged
    [("bill_1", Bill.mk "bill_1" BillStatus.Closed Currency.USD 0 [] 1 (some 2))]
    "bill_1" "fee" 10 "EUR" 3
    (Bill.mk "bill_1" BillStatus.Closed Currency.USD 0 [] 1 (some 2))
    (by with_unfolding_all decide) (by with_unfolding_all decide)

/-- C10: AddLineItem checks its failure conditions in a fixed order — a
missing bill yields BillNotFound whatever the status or currency; an
existing Closed bill yields BillClosed even for an unsupported currency;
and UnsupportedCurrency is only ever produced for an existing open bill
with an invalid currency string (carried verbatim in the error). -/
theorem addLineItem_error_precedence :
    (∀ (s : Store) (billID d : String) (a : ℚ) (rc : String) (now : Nat),
      Store.get s billID = none →
        AddLineItem s billID d a rc now = Except.error (BillingError.BillNotFound billID)) ∧
    (∀ (s : Store) (billID d : String) (a : ℚ) (rc : String) (now : Nat) (bill : Bill),
      Store.get s billID = some bill → bill.status = BillStatus.Closed →
        AddLineItem s billID d a rc now = Except.error (BillingError.BillClosed billID)) ∧
    (∀ (s : Store) (billID d : String) (a : ℚ) (rc : String) (now : Nat) (c : String),
      AddLineItem s billID d a rc now = Except.error (BillingError.UnsupportedCurrency c) →
        ∃ bill, Store.get s billID = some bill ∧ bill.status = BillStatus.Open ∧
          parseCurrency rc = none ∧ c = rc) := by
  refine ⟨?_, ?_, ?_⟩
  · intro s billID d a rc now hget
    unfold AddLineItem
    rw [hget]
  · intro s billID d a rc now bill hget hclosed
    unfold AddLineItem
    rw [hget]
    simp [hclosed]
  · intro s billID d a rc now c herr
    unfold AddLineItem at herr
    cases hg : Store.get s billID with
    | none => rw [hg] at herr; simp at herr
    | some bill =>
      rw [hg] at herr
      by_cases hst : bill.status = BillStatus.Closed
      · simp [hst] at herr
      · simp only [hst, if_false] at herr
        cases hp : parseCurrency rc with
        | some cur => rw [hp] at herr; simp at herr
        | none =>
          rw [hp] at herr
          simp only [Except.error.injEq, BillingError.UnsupportedCurrency.injEq] at herr
          exact ⟨bill, rfl, status_open_of_ne_closed hst, rfl, herr.symm⟩

theorem addLineItem_error_precedence_w :
    AddLineItem [] "missing" "fee" 10 "EUR" 3 =
      Except.error (BillingError.BillNotFound "missing") ∧
    AddLineItem [("bill_1", Bill.mk "bill_1" BillStatus.Closed Currency.USD 0 [] 1 (some 2))]
        "bill_1" "fee" 10 "EUR" 3 =
      Except.error (BillingError.BillClosed "bill_1") ∧
    ∃ bill, Store.get [("bill_1", mkBill Currency.USD 1)] "bill_1" = some bill ∧
      bill.status = BillStatus.Open ∧ parseCurrency "EUR" = none ∧ "EUR" = "EUR" :=
  ⟨addLineItem_error_precedence.1 [] "missing" "fee" 10 "EUR" 3 (by decide),
   addLineItem_error_precedence.2.1
     [("bill_1", Bill.mk "bill_1" BillStatus.Closed Currency.USD 0 [] 1 (some 2))]
     "bill_1" "fee" 10 "EUR" 3
     (Bill.mk "bill_1" BillStatus.Closed Currency.USD 0 [] 1 (some 2))
     (by with_unfolding_all decide) (by with_unfolding_all decide),
   addLineItem_error_precedence.2.2 [("bill_1", mkBill Currency.USD 1)]
     "bill_1" "fee" 10 "EUR" 3 "EUR" (by with_unfolding_all decide)⟩

/-- C6: updating a bill whose identifier is not in the store is a silent
no-op — the store is returned entirely unchanged, the bill is not
inserted (and the repository's Update never returns an error: it is a
total function in this model). -/
theorem update_missing_noop (s : Store) (b : Bill)
    (h : Store.get s b.id = none) : storeUpdate s b = s := by
  unfold storeUpdate
  rw [if_neg]
  rw [get_eq_none_iff] at h
  simp [h]

theorem update_missing_noop_w :
    storeUpdate [("bill_1", mkBill Currency.USD 1)]
        (Bill.mk "bill_9" BillStatus.Open Currency.USD 0 [] 9 none) =
      [("bill_1", mkBill Currency.USD 1)] :=
  update_missing_noop [("bill_1", mkBill Currency.USD 1)]
    (Bill.mk "bill_9" BillStatus.Open Currency.USD 0 [] 9 none)
    (by with_unfolding_all decide)

/-- C5: CreateBill resolves an empty currency to USD, fails with
UnsupportedCurrency exactly when the resolved currency is not GEL/USD
(e.g. "EUR"), and on success returns and persists a bill with status Open,
no line items, zero total and the resolved currency. -/
theorem createBill_spec :
    (∀ (s : Store) (now : Nat), CreateBill s "" now = CreateBill s "USD" now) ∧
    (∀ (s : Store) (rc : String) (now : Nat),
      (∃ e, CreateBill s rc now = Except.error e) ↔
        parseCurrency (if rc = "" then "USD" else rc) = none) ∧
    (∀ (s : Store) (rc : String) (now : Nat),
      parseCurrency (if rc = "" then "USD" else rc) = none →
        CreateBill s rc now =
          Except.error (BillingError.UnsupportedCurrency (if rc = "" then "USD" else rc))) ∧
    (∀ (s : Store) (now : Nat),
      CreateBill s "EUR" now = Except.error (BillingError.UnsupportedCurrency "EUR")) ∧
    (∀ (s : Store) (rc : String) (now : Nat) (cur : Currency),
      parseCurrency (if rc = "" then "USD" else rc) = some cur →
        CreateBill s rc now = Except.ok (mkBill cur now, storeCreate s (mkBill cur now)) ∧
        (mkBill cur now).status = BillStatus.Open ∧
        (mkBill cur now).lineItems = [] ∧
        (mkBill cur now).totalAmount = 0 ∧
        (mkBill cur now).currency = cur ∧
        Store.get (storeCreate s (mkBill cur now)) (mkBill cur now).id =
          some (mkBill cur now)) := by
  refine ⟨?_, ?_, ?_, ?_, ?_⟩
  · intro s now
    simp [CreateBill]
  · intro s rc now
    unfold CreateBill
    cases hp : parseCurrency (if rc = "" then "USD" else rc) with
    | none => simp [hp]
    | some cur => simp [hp]
  · intro s rc now hp
    unfold CreateBill
    simp [hp]
  · intro s now
    have : parseCurrency (if "EUR" = "" then "USD" else "EUR") = none := by decide
    unfold CreateBill
    simp only [this]
    rfl
  · intro s rc now cur hp
    refine ⟨?_, rfl, rfl, rfl, rfl, get_storeCreate_self s (mkBill cur now)⟩
    unfold CreateBill
    simp [hp]

theorem createBill_spec_w :
    CreateBill [] "" 1 = CreateBill [] "USD" 1 ∧
    ((∃ e, CreateBill [] "EUR" 1 = Except.error e) ↔
      parseCurrency (if "EUR" = "" then "USD" else "EUR") = none) ∧
    CreateBill [] "EUR" 1 =
      Except.error (BillingError.UnsupportedCurrency (if "EUR" = "" then "USD" else "EUR")) ∧
    CreateBill [] "EUR" 1 = Except.error (BillingError.UnsupportedCurrency "EUR") ∧
    (CreateBill [] "GEL" 1 = Except.ok (mkBill Currency.GEL 1, storeCreate [] (mkBill Currency.GEL 1)) ∧
      (mkBill Currency.GEL 1).status = BillStatus.Open ∧
      (mkBill Currency.GEL 1).lineItems = [] ∧
      (mkBill Currency.GEL 1).totalAmount = 0 ∧
      (mkBill Currency.GEL 1).currency = Currency.GEL ∧
      Store.get (storeCreate [] (mkBill Currency.GEL 1)) (mkBill Currency.GEL 1).id =
        some (mkBill Currency.GEL 1)) :=
  ⟨createBill_spec.1 [] 1,
   createBill_spec.2.1 [] "EUR" 1,
   createBill_spec.2.2.1 [] "EUR" 1 (by decide),
   createBill_spec.2.2.2.1 [] 1,
   createBill_spec.2.2.2.2 [] "GEL" 1 Currency.GEL (by decide)⟩

/-- C7: ListBills never fails (it is a total function of the store); with
the empty filter it returns every stored bill, with a non-empty filter it
returns exactly the bills whose status string matches; and the "open" and
"closed" lists together are, as a multiset, exactly the unfiltered list. -/
theorem listBills_spec :
    (∀ s : Store, ListBills s "" = s.map (fun p => p.2)) ∧
    (∀ (s : Store) (st : String), st ≠ "" →
      ListBills s st = (s.map (fun p => p.2)).filter (fun b => statusString b.status = st)) ∧
    (∀ s : Store,
      (↑(ListBills s "open") + ↑(ListBills s "closed") : Multiset Bill) =
        ↑(ListBills s "")) := by
  have h1 : ∀ s : Store, ListBills s "" = s.map (fun p => p.2) := by
    intro s
    unfold ListBills storeList
    simp only [ne_eq, not_true_eq_false, false_and, if_false]
    rw [show (fun (p : String × Bill) => some p.2) = some ∘ (fun p => p.2) from rfl,
        List.filterMap_eq_map]
  have h2 : ∀ (s : Store) (st : String), st ≠ "" →
      ListBills s st = (s.map (fun p => p.2)).filter (fun b => statusString b.status = st) := by
    intro s st hst
    unfold ListBills storeList
    induction s with
    | nil => rfl
    | cons q t ih =>
      rw [List.filterMap_cons, List.map_cons, List.filter_cons]
      by_cases hq : statusString q.2.status = st
      · have hcond : ¬ (st ≠ "" ∧ statusString q.2.status ≠ st) := fun hcon => hcon.2 hq
        rw [if_neg hcond, ih]
        simp [hq]
      · have hcond : (st ≠ "" ∧ statusString q.2.status ≠ st) := ⟨hst, hq⟩
        rw [if_pos hcond, ih]
        simp [hq]
  refine ⟨h1, h2, ?_⟩
  intro s
  rw [h1, h2 s "open" (by decide), h2 s "closed" (by decide), Multiset.coe_add,
      Multiset.coe_eq_coe]
  have hneg : (fun b : Bill => decide (statusString b.status = "closed")) =
      (fun b : Bill => ! decide (statusString b.status = "open")) := by
    funext b
    cases b.status <;> rfl
  rw [hneg]
  exact List.filter_append_perm _ _

theorem listBills_spec_w :
    ListBills [("bill_1", mkBill Currency.USD 1)] "" =
      [("bill_1", mkBill Currency.USD 1)].map (fun p => p.2) ∧
    ListBills [("bill_1", mkBill Currency.USD 1)] "open" =
      ([("bill_1", mkBill Currency.USD 1)].map (fun p => p.2)).filter
        (fun b => statusString b.status = "open") :=
  ⟨listBills_spec.1 [("bill_1", mkBill Currency.USD 1)],
   listBills_spec.2.1 [("bill_1", mkBill Currency.USD 1)] "open" (by decide)⟩

/-! ### The running-total invariant -/

theorem recomputedTotal_mkBill (cur : Currency) (now : Nat) :
    recomputedTotal (mkBill cur now) = 0 := rfl

theorem recomputedTotal_addItem (bill : Bill) (d : String) (a : ℚ) (cur : Currency) (now : Nat) :
    recomputedTotal { bill with
        lineItems := bill.lineItems ++ [mkLineItem d a cur now]
        totalAmount := convertAndAdd bill.totalAmount bill.currency a cur } =
      convertAndAdd (recomputedTotal bill) bill.currency a cur := by
  unfold recomputedTotal
  rw [List.foldl_append]
  rfl

theorem recomputedTotal_close (bill : Bill) (now : Nat) :
    recomputedTotal { bill with status := BillStatus.Closed, closedAt := some now } =
      recomputedTotal bill := rfl

theorem TotalInv_nil : TotalInv [] := by
  intro p hp
  cases hp

theorem TotalInv_applyOp {s : Store} (h : TotalInv s) (op : Op) :
    TotalInv (applyOp s op) := by
  cases op with
  | create rc now =>
    simp only [applyOp]
    cases hc : CreateBill s rc now with
    | error e => exact h
    | ok pr =>
      obtain ⟨b', s'⟩ := pr
      obtain ⟨cur, hp, hb, hs⟩ := CreateBill_ok_inv hc
      subst hs
      intro p hp2
      rcases mem_storeCreate hp2 with hmem | rfl
      · exact h p hmem
      · show (mkBill cur now).totalAmount = recomputedTotal (mkBill cur now)
        rfl
  | add id d a rc now =>
    simp only [applyOp]
    cases hc : AddLineItem s id d a rc now with
    | error e => exact h
    | ok pr =>
      obtain ⟨b', s'⟩ := pr
      obtain ⟨bill, cur, hget, hopen, hpc, hb, hs⟩ := AddLineItem_ok_inv hc
      subst hs
      intro p hp2
      rcases mem_storeUpdate hp2 with hmem | rfl
      · exact h p hmem
      · show b'.totalAmount = recomputedTotal b'
        have hbilltotal : bill.totalAmount = recomputedTotal bill := h (id, bill) (get_mem hget)
        subst hb
        rw [recomputedTotal_addItem, ← hbilltotal]
  | close id now =>
    simp only [applyOp]
    cases hc : CloseBill s id now with
    | error e => exact h
    | ok pr =>
      obtain ⟨b', s'⟩ := pr
      obtain ⟨bill, hget, hopen, hb, hs⟩ := CloseBill_ok_inv hc
      subst hs
      intro p hp2
      rcases mem_storeUpdate hp2 with hmem | rfl
      · exact h p hmem
      · show b'.totalAmount = recomputedTotal b'
        have hbilltotal : bill.totalAmount = recomputedTotal bill := h (id, bill) (get_mem hget)
        subst hb
        rw [recomputedTotal_close]
        exact hbilltotal
  | getOp id => exact h
  | listOp st => exact h

theorem TotalInv_runOps {s : Store} (h : TotalInv s) (ops : List Op) :
    TotalInv (runOps s ops) := by
  induction ops generalizing s with
  | nil => exact h
  | cons op t ih => exact ih (TotalInv_applyOp h op)

/-- C2: in every store reachable by a sequence of operations from the empty
store, each stored bill's totalAmount equals the full recomputation — the
fold, over its line items in insertion order, of the conversion step into
the bill's currency (a freshly created bill with no items recomputes to 0). -/
theorem billTotal_matches_recomputation (ops : List Op) :
    ∀ p ∈ runOps [] ops, (p.2).totalAmount = recomputedTotal p.2 :=
  TotalInv_runOps TotalInv_nil ops

theorem billTotal_matches_recomputation_w :
    (Bill.mk "bill_1" BillStatus.Open Currency.USD 37
        [LineItem.mk "bill_2" "fee" 100 Currency.GEL 2] 1 none).totalAmount =
      recomputedTotal (Bill.mk "bill_1" BillStatus.Open Currency.USD 37
        [LineItem.mk "bill_2" "fee" 100 Currency.GEL 2] 1 none) :=
  billTotal_matches_recomputation
    [Op.create "USD" 1, Op.add "bill_1" "fee" 100 "GEL" 2]
    ("bill_1", Bill.mk "bill_1" BillStatus.Open Currency.USD 37
      [LineItem.mk "bill_2" "fee" 100 Currency.GEL 2] 1 none)
    (by with_unfolding_all decide)

/-- C3: CloseBill fails with BillNotFound on a missing id and with
BillClosed on an already-Closed bill (a second close is an error, not a
no-op); on an Open bill it succeeds, returning and persisting the bill with
status Closed and a non-absent closedAt.  Moreover no operation ever
transitions a stored Closed bill back to Open: after any operation the bill
stored under its id is either that same closed bill, or — only when a
CreateBill generated a colliding identifier — a freshly constructed new
bill, never the closed bill reopened. -/
theorem closeBill_spec :
    (∀ (s : Store) (billID : String) (now : Nat),
      Store.get s billID = none →
        CloseBill s billID now = Except.error (BillingError.BillNotFound billID)) ∧
    (∀ (s : Store) (billID : String) (now : Nat) (bill : Bill),
      Store.get s billID = some bill → bill.status = BillStatus.Closed →
        CloseBill s billID now = Except.error (BillingError.BillClosed billID)) ∧
    (∀ (s : Store) (billID : String) (now : Nat) (bill : Bill),
      WFStore s → Store.get s billID = some bill → bill.status = BillStatus.Open →
        CloseBill s billID now =
          Except.ok ({ bill with status := BillStatus.Closed, closedAt := some now },
                     storeUpdate s { bill with status := BillStatus.Closed, closedAt := some now }) ∧
        ({ bill with status := BillStatus.Closed, closedAt := some now }).closedAt = some now ∧
        Store.get (storeUpdate s { bill with status := BillStatus.Closed, closedAt := some now })
            billID =
          some { bill with status := BillStatus.Closed, closedAt := some now }) ∧
    (∀ (s : Store) (op : Op) (billID : String) (bill bill' : Bill),
      WFStore s → Store.get s billID = some bill → bill.status = BillStatus.Closed →
        Store.get (applyOp s op) billID = some bill' →
        bill' = bill ∨ ∃ rc n2 cur, op = Op.create rc n2 ∧ bill' = mkBill cur n2) := by
  refine ⟨?_, ?_, ?_, ?_⟩
  · intro s billID now hget
    unfold CloseBill
    rw [hget]
  · intro s billID now bill hget hclosed
    unfold CloseBill
    rw [hget]
    simp [hclosed]
  · intro s billID now bill hwf hget hopen
    have hkey : billID = bill.id := hwf (billID, bill) (get_mem hget)
    have hok : CloseBill s billID now =
        Except.ok ({ bill with status := BillStatus.Closed, closedAt := some now },
                   storeUpdate s { bill with status := BillStatus.Closed, closedAt := some now }) := by
      unfold CloseBill
      rw [hget]
      simp [hopen]
    refine ⟨hok, rfl, ?_⟩
    have hhk : storeHasKey s ({ bill with status := BillStatus.Closed, closedAt := some now }).id = true := by
      show storeHasKey s bill.id = true
      rw [← hkey]
      exact get_isSome_hasKey hget
    have := get_storeUpdate_self s { bill with status := BillStatus.Closed, closedAt := some now } hhk
    rw [hkey]
    exact this
  · intro s op billID bill bill' hwf hget hclosed hget'
    cases op with
    | getOp id2 =>
      left
      exact (Option.some.inj (hget.symm.trans hget')).symm
    | listOp st =>
      left
      exact (Option.some.inj (hget.symm.trans hget')).symm
    | create rc n2 =>
      simp only [applyOp] at hget'
      cases hc : CreateBill s rc n2 with
      | error e =>
        rw [hc] at hget'
        left
        exact (Option.some.inj (hget.symm.trans hget')).symm
      | ok pr =>
        obtain ⟨b2, s2⟩ := pr
        rw [hc] at hget'
        obtain ⟨cur, hp, hb2, hs2⟩ := CreateBill_ok_inv hc
        subst hs2
        by_cases hid : billID = (mkBill cur n2).id
        · right
          refine ⟨rc, n2, cur, rfl, ?_⟩
          rw [hid, get_storeCreate_self] at hget'
          exact (Option.some.inj hget').symm
        · left
          rw [get_storeCreate_ne s _ billID hid] at hget'
          exact (Option.some.inj (hget.symm.trans hget')).symm
    | add id2 d a rc n2 =>
      simp only [applyOp] at hget'
      cases hc : AddLineItem s id2 d a rc n2 with
      | error e =>
        rw [hc] at hget'
        left
        exact (Option.some.inj (hget.symm.trans hget')).symm
      | ok pr =>
        obtain ⟨b2, s2⟩ := pr
        rw [hc] at hget'
        obtain ⟨bill2, cur, hget2, hopen2, hp2, hb2, hs2⟩ := AddLineItem_ok_inv hc
        subst hs2
        have hid2 : id2 = bill2.id := hwf (id2, bill2) (get_mem hget2)
        by_cases hid : billID = id2
        · exfalso
          rw [hid] at hget
          rw [hget2] at hget
          obtain rfl : bill = bill2 := Option.some.inj hget.symm
          rw [hopen2] at hclosed
          cases hclosed
        · left
          have hne : billID ≠ b2.id := by
            rw [hb2]
            show billID ≠ bill2.id
            rw [← hid2]
            exact hid
          rw [get_storeUpdate_ne s b2 billID hne] at hget'
          exact (Option.some.inj (hget.symm.trans hget')).symm
    | close id2 n2 =>
      simp only [applyOp] at hget'
      cases hc : CloseBill s id2 n2 with
      | error e =>
        rw [hc] at hget'
        left
        exact (Option.some.inj (hget.symm.trans hget')).symm
      | ok pr =>
        obtain ⟨b2, s2⟩ := pr
        rw [hc] at hget'
        obtain ⟨bill2, hget2, hopen2, hb2, hs2⟩ := CloseBill_ok_inv hc
        subst hs2
        have hid2 : id2 = bill2.id := hwf (id2, bill2) (get_mem hget2)
        by_cases hid : billID = id2
        · exfalso
          rw [hid] at hget
          rw [hget2] at hget
          obtain rfl : bill = bill2 := Option.some.inj hget.symm
          rw [hopen2] at hclosed
          cases hclosed
        · left
          have hne : billID ≠ b2.id := by
            rw [hb2]
            show billID ≠ bill2.id
            rw [← hid2]
            exact hid
          rw [get_storeUpdate_ne s b2 billID hne] at hget'
          exact (Option.some.inj (hget.symm.trans hget')).symm

theorem closeBill_spec_w :
    CloseBill [] "missing" 1 = Except.error (BillingError.BillNotFound "missing") ∧
    CloseBill [("bill_1", Bill.mk "bill_1" BillStatus.Closed Currency.USD 0 [] 1 (some 2))]
        "bill_1" 3 =
      Except.error (BillingError.BillClosed "bill_1") ∧
    (CloseBill [("bill_1", mkBill Currency.USD 1)] "bill_1" 2 =
        Except.ok ({ mkBill Currency.USD 1 with
                       status := BillStatus.Closed, closedAt := some 2 },
                   storeUpdate [("bill_1", mkBill Currency.USD 1)]
                     { mkBill Currency.USD 1 with
                         status := BillStatus.Closed, closedAt := some 2 }) ∧
      ({ mkBill Currency.USD 1 with
           status := BillStatus.Closed, closedAt := some 2 }).closedAt = some 2 ∧
      Store.get (storeUpdate [("bill_1", mkBill Currency.USD 1)]
          { mkBill Currency.USD 1 with status := BillStatus.Closed, closedAt := some 2 })
          "bill_1" =
        some { mkBill Currency.USD 1 with status := BillStatus.Closed, closedAt := some 2 }) ∧
    (Bill.mk "bill_1" BillStatus.Closed Currency.USD 0 [] 1 (some 2) =
        Bill.mk "bill_1" BillStatus.Closed Currency.USD 0 [] 1 (some 2) ∨
      ∃ rc n2 cur, Op.getOp "x" = Op.create rc n2 ∧
        Bill.mk "bill_1" BillStatus.Closed Currency.USD 0 [] 1 (some 2) = mkBill cur n2) :=
  ⟨closeBill_spec.1 [] "missing" 1 (by decide),
   closeBill_spec.2.1 [("bill_1", Bill.mk "bill_1" BillStatus.Closed Currency.USD 0 [] 1 (some 2))]
     "bill_1" 3 (Bill.mk "bill_1" BillStatus.Closed Currency.USD 0 [] 1 (some 2))
     (by with_unfolding_all decide) (by with_unfolding_all decide),
   closeBill_spec.2.2.1 [("bill_1", mkBill Currency.USD 1)] "bill_1" 2 (mkBill Currency.USD 1)
     (by intro p hp; rw [List.mem_singleton] at hp; subst hp; with_unfolding_all rfl)
     (by with_unfolding_all decide) (by with_unfolding_all decide),
   closeBill_spec.2.2.2 [("bill_1", Bill.mk "bill_1" BillStatus.Closed Currency.USD 0 [] 1 (some 2))]
     (Op.getOp "x") "bill_1"
     (Bill.mk "bill_1" BillStatus.Closed Currency.USD 0 [] 1 (some 2))
     (Bill.mk "bill_1" BillStatus.Closed Currency.USD 0 [] 1 (some 2))
     (by intro p hp; rw [List.mem_singleton] at hp; subst hp; with_unfolding_all rfl)
     (by with_unfolding_all decide)
     (by with_unfolding_all decide) (by with_unfolding_all decide)⟩

/-! ### JSON round trip and display string -/

theorem parseStatus_statusString (st : BillStatus) :
    parseStatus (statusString st) = some st := by
  cases st <;> rfl

theorem parseCurrency_currencyString (c : Currency) :
    parseCurrency (currencyString c) = some c := by
  cases c <;> rfl

theorem unmarshal_marshal_lineItem (li : LineItem) :
    unmarshalLineItem (LineItem.marshal li) = some li := by
  unfold unmarshalLineItem LineItem.marshal
  rw [parseCurrency_currencyString]
  rfl

theorem mapM_unmarshal_marshal (items : List LineItem) :
    (items.map LineItem.marshal).mapM unmarshalLineItem = some items := by
  induction items with
  | nil => rfl
  | cons li t ih =>
    rw [List.map_cons, List.mapM_cons, unmarshal_marshal_lineItem, ih]
    rfl

theorem unmarshalBill_marshalJSON (b : Bill) :
    unmarshalBill (Bill.marshalJSON b) = some b := by
  unfold unmarshalBill Bill.marshalJSON
  rw [parseStatus_statusString, parseCurrency_currencyString, mapM_unmarshal_marshal]
  rfl

theorem roundTiesEven_intCast (n : ℤ) : roundTiesEven (n : ℚ) = n := by
  unfold roundTiesEven
  rw [Int.floor_intCast, sub_self]
  norm_num

theorem displayValue_eq_iff (b : Bill) :
    displayValue b = b.totalAmount ↔ (100 * b.totalAmount).den = 1 := by
  unfold displayValue
  constructor
  · intro h
    rw [div_eq_iff (by norm_num : (100 : ℚ) ≠ 0)] at h
    have hc : (100 * b.totalAmount) =
        ((roundTiesEven (100 * b.totalAmount) : ℤ) : ℚ) := by
      rw [h]
      ring
    rw [hc]
    exact Rat.den_intCast _
  · intro h
    rw [Rat.den_eq_one_iff] at h
    rw [← h, roundTiesEven_intCast, h]
    ring

/-- C8 counterexample: a bill whose total is 0.001 serializes with display
string "0.00 USD", whose numeric value 0 differs from the raw totalAmount,
so the display string's numeric value does not match `totalAmount` for
every Bill. -/
theorem marshal_display_mismatch_cex :
    (Bill.marshalJSON (Bill.mk "b" BillStatus.Open Currency.USD (1 / 1000) [] 0 none)).totalAmountDisplay
      = "0.00 USD" ∧
    displayValue (Bill.mk "b" BillStatus.Open Currency.USD (1 / 1000) [] 0 none) = 0 ∧
    (Bill.mk "b" BillStatus.Open Currency.USD (1 / 1000) [] 0 none).totalAmount ≠
      displayValue (Bill.mk "b" BillStatus.Open Currency.USD (1 / 1000) [] 0 none) := by
  refine ⟨?_, ?_, ?_⟩ <;> with_unfolding_all decide

/-- C8 amended: serialize-then-deserialize restores every Bill exactly (all
fields); the serialized form carries the raw totalAmount together with the
display string "<total to 2 decimals> <currency code>", and the display's
numeric value equals the total rounded to two decimal places — it equals
totalAmount itself exactly when 100·totalAmount is an integer. -/
theorem marshal_roundtrip_display :
    (∀ b : Bill, unmarshalBill (Bill.marshalJSON b) = some b) ∧
    (∀ b : Bill, (Bill.marshalJSON b).totalAmount = b.totalAmount ∧
      (Bill.marshalJSON b).totalAmountDisplay =
        fmtF2 b.totalAmount ++ " " ++ currencyString b.currency) ∧
    (∀ b : Bill, displayValue b = b.totalAmount ↔ (100 * b.totalAmount).den = 1) :=
  ⟨unmarshalBill_marshalJSON, fun _ => ⟨rfl, rfl⟩, displayValue_eq_iff⟩

theorem marshal_roundtrip_display_w :
    unmarshalBill (Bill.marshalJSON (Bill.mk "b" BillStatus.Open Currency.USD 37
        [LineItem.mk "li" "fee" 100 Currency.GEL 2] 0 none)) =
      some (Bill.mk "b" BillStatus.Open Currency.USD 37
        [LineItem.mk "li" "fee" 100 Currency.GEL 2] 0 none) ∧
    (displayValue (Bill.mk "b" BillStatus.Open Currency.USD 37 [] 0 none) =
        (Bill.mk "b" BillStatus.Open Currency.USD 37 [] 0 none).totalAmount ↔
      (100 * (Bill.mk "b" BillStatus.Open Currency.USD 37 [] 0 none).totalAmount).den = 1) :=
  ⟨marshal_roundtrip_display.1 _, marshal_roundtrip_display.2.2 _⟩

/-! ### Identifier generation -/

theorem digitVal_digitChar : ∀ n, n < 10 → digitVal (Nat.digitChar n) = n := by
  decide

theorem decode_toDigitsCore :
    ∀ (fuel n : Nat), n < fuel → ∀ acc : List Char,
      (Nat.toDigitsCore 10 fuel n acc).foldl (fun a c => a * 10 + digitVal c) 0 =
        acc.foldl (fun a c => a * 10 + digitVal c) n := by
  intro fuel
  induction fuel with
  | zero =>
    intro n h
    exact absurd h (Nat.not_lt_zero n)
  | succ f ih =>
    intro n h acc
    simp only [Nat.toDigitsCore]
    by_cases hdiv : n / 10 = 0
    · rw [if_pos hdiv, List.foldl_cons,
          digitVal_digitChar (n % 10) (Nat.mod_lt _ (by norm_num))]
      have hn : 0 * 10 + n % 10 = n := by omega
      rw [hn]
    · rw [if_neg hdiv]
      have hlt : n / 10 < f := by
        have h1 : 0 < n := by
          rcases Nat.eq_zero_or_pos n with h0 | h0
          · exact absurd (by simp [h0]) hdiv
          · exact h0
        have h2 : n / 10 < n := Nat.div_lt_self h1 (by norm_num)
        omega
      rw [ih (n / 10) hlt (Nat.digitChar (n % 10) :: acc), List.foldl_cons,
          digitVal_digitChar (n % 10) (Nat.mod_lt _ (by norm_num))]
      have hn : n / 10 * 10 + n % 10 = n := by omega
      rw [hn]

theorem decodeDigits_repr (n : Nat) : decodeDigits (Nat.repr n).data = n := by
  show (Nat.toDigitsCore 10 (n + 1) n []).foldl (fun a c => a * 10 + digitVal c) 0 = n
  exact decode_toDigitsCore (n + 1) n (Nat.lt_succ_self n) []

/-- C9 counterexample: with the nanosecond clock reading the same value 5,
a reachable sequence of operations produces two bills both identified
"bill_5", and a line item also identified "bill_5" — generated identifiers
are not globally unique. -/
theorem ids_collide_cex :
    (CreateBill [] "USD" 5).map (fun p => p.1.id) = Except.ok "bill_5" ∧
    (CreateBill (storeCreate [] (mkBill Currency.USD 5)) "USD" 5).map (fun p => p.1.id) =
      Except.ok "bill_5" ∧
    (AddLineItem (storeCreate [] (mkBill Currency.USD 5)) "bill_5" "fee" 10 "USD" 5).map
      (fun p => p.1.lineItems.map (fun li => li.id)) = Except.ok ["bill_5"] := by
  refine ⟨?_, ?_, ?_⟩ <;> with_unfolding_all decide

/-- C9 amended: identifier generation is injective in the clock — two
generated identifiers (for bills or line items alike, which share the
`bill_<ns>` format) are equal exactly when the nanosecond readings are
equal; identifiers are therefore globally unique precisely when no two
generation events observe the same nanosecond. -/
theorem generateID_eq_iff (t1 t2 : Nat) : generateID t1 = generateID t2 ↔ t1 = t2 := by
  constructor
  · intro h
    have hd := congrArg String.data h
    unfold generateID at hd
    rw [String.data_append, String.data_append] at hd
    have hdd := List.append_cancel_left hd
    have h1 := decodeDigits_repr t1
    have h2 := decodeDigits_repr t2
    rw [← h1, ← h2, hdd]
  · intro h
    rw [h]

theorem generateID_eq_iff_w : generateID 5 = generateID 7 ↔ 5 = 7 :=
  generateID_eq_iff 5 7
